import Mathlib

/-!
Verification of the campus-administration chat backend
(`backend/unified_agent.py`, `backend/models.py`, `backend/email_service.py`).

The Python source is shallowly embedded: every pure fragment becomes a Lean
function, stateful fragments become explicit state passing over a session
store, and each call to an external collaborator (SQLite, SMTP, the LLM,
the web-search provider) is modelled by an explicit outcome parameter, so a
tool or chat entry point is a pure function of its inputs and of the
outcomes its collaborators would deliver.
-/

namespace CampusAgent

/-! ## Python string primitives

`pyLower` models `str.lower` (per-character lowercasing, which coincides
with Python on the ASCII data used by the agent), `pySplit` models the
argument-free `str.split` (split on whitespace runs, dropping empty
pieces), `containsSub` models the substring test `needle in hay`, and
`countOccur` models `hay.count(needle)`: non-overlapping occurrences
counted by a greedy left-to-right scan, with `len(hay) + 1` for the empty
needle exactly as in Python. -/

def pyLower (s : String) : String :=
  String.mk (s.data.map Char.toLower)

def splitGo : List Char → List Char → List (List Char)
  | [], acc => if acc = [] then [] else [acc.reverse]
  | c :: t, acc =>
    if c.isWhitespace then
      if acc = [] then splitGo t [] else acc.reverse :: splitGo t []
    else
      splitGo t (c :: acc)

def pySplit (s : String) : List String :=
  (splitGo s.data []).map String.mk

def containsSub (needle hay : List Char) : Bool :=
  List.isPrefixOf needle hay ||
    match hay with
    | [] => false
    | _ :: t => containsSub needle t

def containsSubS (needle hay : String) : Bool :=
  containsSub needle.data hay.data

def countOccurGo (needle : List Char) : Nat → List Char → Nat
  | _, [] => 0
  | 0, _ :: _ => 0
  | fuel + 1, c :: t =>
    if List.isPrefixOf needle (c :: t) then
      1 + countOccurGo needle fuel (List.drop needle.length (c :: t))
    else
      countOccurGo needle fuel t

def countOccur (needle hay : List Char) : Nat :=
  if needle = [] then hay.length + 1 else countOccurGo needle hay.length hay

def countOccurS (needle hay : String) : Nat :=
  countOccur needle.data hay.data

theorem countOccurGo_nil (n : List Char) (f : Nat) : countOccurGo n f [] = 0 := by
  cases f <;> rfl

theorem countOccurGo_cons (n : List Char) (f : Nat) (c : Char) (t : List Char) :
    countOccurGo n (f + 1) (c :: t) =
      if List.isPrefixOf n (c :: t) then
        1 + countOccurGo n f (List.drop n.length (c :: t))
      else countOccurGo n f t := rfl

theorem countOccurGo_congr {n : List Char} (hn : n ≠ []) :
    ∀ (f1 : Nat) (h : List Char), h.length ≤ f1 → ∀ f2, h.length ≤ f2 →
      countOccurGo n f1 h = countOccurGo n f2 h := by
  intro f1
  induction f1 with
  | zero =>
    intro h hh f2 _
    have : h = [] := List.eq_nil_of_length_eq_zero (Nat.le_zero.mp hh)
    subst this
    rw [countOccurGo_nil, countOccurGo_nil]
  | succ f ih =>
    intro h hh f2 hh2
    cases h with
    | nil => rw [countOccurGo_nil, countOccurGo_nil]
    | cons c t =>
      have hnl : 0 < n.length := List.length_pos.mpr hn
      cases f2 with
      | zero =>
        exfalso
        simp only [List.length_cons] at hh2
        omega
      | succ f2' =>
        rw [countOccurGo_cons, countOccurGo_cons]
        simp only [List.length_cons] at hh hh2
        by_cases hp : List.isPrefixOf n (c :: t) = true
        · rw [if_pos hp, if_pos hp]
          have hdl : (List.drop n.length (c :: t)).length ≤ f := by
            rw [List.length_drop, List.length_cons]
            omega
          have hdl2 : (List.drop n.length (c :: t)).length ≤ f2' := by
            rw [List.length_drop, List.length_cons]
            omega
          rw [ih _ hdl _ hdl2]
        · rw [if_neg (by simpa using hp), if_neg (by simpa using hp)]
          exact ih t (by omega) f2' (by omega)

theorem countOccur_nil' {n : List Char} (hn : n ≠ []) : countOccur n [] = 0 := by
  rw [countOccur, if_neg hn]
  exact countOccurGo_nil n _

theorem countOccur_cons' {n : List Char} (hn : n ≠ []) (c : Char) (t : List Char) :
    countOccur n (c :: t) =
      if List.isPrefixOf n (c :: t) then
        1 + countOccur n (List.drop n.length (c :: t))
      else countOccur n t := by
  have hnl : 0 < n.length := List.length_pos.mpr hn
  rw [countOccur, if_neg hn]
  rw [List.length_cons, countOccurGo_cons]
  by_cases hp : List.isPrefixOf n (c :: t) = true
  · rw [if_pos hp, if_pos hp, countOccur, if_neg hn]
    have h1 : (List.drop n.length (c :: t)).length ≤ t.length := by
      rw [List.length_drop, List.length_cons]
      omega
    rw [countOccurGo_congr hn t.length _ h1 _ (le_refl _)]
  · rw [if_neg (by simpa using hp), if_neg (by simpa using hp), countOccur, if_neg hn]

/-! ## Intent classifier (`classify_query`, unified_agent.py lines 394-412)

The query is lowercased once; the first keyword list matched by substring
containment decides the operation type, information-query keywords being
tested before administrative ones. -/

inductive OperationType
  | nust_info
  | campus_admin
  | general
deriving DecidableEq, Repr

def nust_keywords : List String :=
  ["nust", "national university", "sciences technology", "islamabad university"]

def admin_keywords : List String :=
  ["add student", "delete student", "update student", "list students",
   "student info", "campus analytics", "statistics"]

def classify_query (query : String) : OperationType :=
  let q := pyLower query
  if nust_keywords.any (fun k => containsSubS k q) then .nust_info
  else if admin_keywords.any (fun k => containsSubS k q) then .campus_admin
  else .general

/-! ## Web search adapter (`WebSearchTool.search`, unified_agent.py lines 139-171)

Only the query-rewriting step is data-dependent: the query actually sent
to the provider. -/

def searchQuery (query : String) : String :=
  if containsSubS "nust" (pyLower query) then
    "NUST University Pakistan " ++ query
  else
    query

/-! ## Knowledge retriever (`NUSTRAGSystem.retrieve_context`, unified_agent.py lines 100-127)

A corpus entry is its page content plus the title drawn from its metadata
(defaulting to the empty string). The query is lowercased and split into
keywords; each entry scores the number of occurrences of each keyword in
its lowercased content plus twice the occurrences in its lowercased
title; zero-score entries are dropped; the rest are sorted descending by
score with Python's stable sort and the first three are returned. The
stable descending sort is embedded as left-to-right insertion placing
each element after all earlier elements of greater-or-equal score, which
is exactly the stable `sort(key=score, reverse=True)` order. -/

structure Doc where
  content : String
  title : String
deriving DecidableEq, Repr

def queryKeywords (query : String) : List String :=
  pySplit (pyLower query)

def scoreDoc (keywords : List String) (content title : String) : Nat :=
  keywords.foldl
    (fun s kw =>
      let s1 := if containsSubS kw content then s + countOccurS kw content else s
      if containsSubS kw title then s1 + countOccurS kw title * 2 else s1)
    0

def docScore (query : String) (d : Doc) : Nat :=
  scoreDoc (queryKeywords query) (pyLower d.content) (pyLower d.title)

def scoredOf (docs : List Doc) (query : String) : List (Doc × Nat) :=
  docs.filterMap (fun d =>
    if 0 < docScore query d then some (d, docScore query d) else none)

def insertDesc (x : Doc × Nat) : List (Doc × Nat) → List (Doc × Nat)
  | [] => [x]
  | y :: ys => if y.2 < x.2 then x :: y :: ys else y :: insertDesc x ys

def sortDesc (l : List (Doc × Nat)) : List (Doc × Nat) :=
  l.foldl (fun acc x => insertDesc x acc) []

def retrieve_context (docs : List Doc) (query : String) : List Doc :=
  ((sortDesc (scoredOf docs query)).take 3).map Prod.fst

/-! ### Substring-count facts -/

theorem containsSub_nil (n : List Char) :
    containsSub n [] = List.isPrefixOf n [] := by
  simp [containsSub]

theorem containsSub_cons (n : List Char) (c : Char) (t : List Char) :
    containsSub n (c :: t) = (List.isPrefixOf n (c :: t) || containsSub n t) := by
  simp [containsSub]

theorem countOccur_pos_of_containsSub {n h : List Char} (hn : n ≠ [])
    (hc : containsSub n h = true) : 0 < countOccur n h := by
  induction h with
  | nil =>
    rw [containsSub_nil] at hc
    rw [List.isPrefixOf_iff_prefix, List.prefix_nil] at hc
    exact absurd hc hn
  | cons c t ih =>
    rw [countOccur_cons' hn]
    rw [containsSub_cons, Bool.or_eq_true] at hc
    by_cases hp : List.isPrefixOf n (c :: t) = true
    · simp only [hp, if_true]
      omega
    · simp only [hp, if_false]
      rcases hc with hc | hc
      · exact absurd hc hp
      · exact ih hc

theorem containsSub_of_countOccur_pos {n : List Char} (hn : n ≠ []) :
    ∀ h : List Char, 0 < countOccur n h → containsSub n h = true := by
  intro h
  induction h with
  | nil =>
    rw [countOccur_nil' hn]
    intro hpos
    exact absurd hpos (by simp)
  | cons c t ih =>
    rw [countOccur_cons' hn]
    by_cases hp : List.isPrefixOf n (c :: t) = true
    · intro _
      rw [containsSub_cons, hp, Bool.true_or]
    · simp only [hp, if_false]
      intro hpos
      rw [containsSub_cons, ih hpos, Bool.or_true]

theorem countOccur_eq_zero_of_not_containsSub {n h : List Char} (hn : n ≠ [])
    (hc : containsSub n h = false) : countOccur n h = 0 := by
  by_contra hne
  have := containsSub_of_countOccur_pos hn h (Nat.pos_of_ne_zero hne)
  rw [hc] at this
  exact absurd this (by simp)

theorem data_ne_nil_of_ne_empty {w : String} (h : w ≠ "") : w.data ≠ [] := by
  intro hd
  apply h
  cases w with
  | mk l =>
    simp only at hd
    rw [hd]

theorem mem_splitGo_ne_nil :
    ∀ (l acc : List Char), ∀ w ∈ splitGo l acc, w ≠ [] := by
  intro l
  induction l with
  | nil =>
    intro acc w hw
    rw [splitGo] at hw
    by_cases ha : acc = []
    · rw [if_pos ha] at hw
      cases hw
    · rw [if_neg ha] at hw
      rcases List.mem_singleton.mp hw with rfl
      simpa using ha
  | cons c t ih =>
    intro acc w hw
    rw [splitGo] at hw
    by_cases hc : c.isWhitespace
    · rw [if_pos hc] at hw
      by_cases ha : acc = []
      · rw [if_pos ha] at hw
        exact ih [] w hw
      · rw [if_neg ha] at hw
        rcases List.mem_cons.mp hw with rfl | hw
        · simpa using ha
        · exact ih [] w hw
    · rw [if_neg hc] at hw
      exact ih (c :: acc) w hw

theorem mem_pySplit_ne_empty {s : String} {w : String} (hw : w ∈ pySplit s) :
    w ≠ "" := by
  unfold pySplit at hw
  rw [List.mem_map] at hw
  obtain ⟨wc, hwc, rfl⟩ := hw
  have hne := mem_splitGo_ne_nil s.data [] wc hwc
  intro hcontra
  apply hne
  have : (String.mk wc).data = [] := by rw [hcontra]
  simpa using this

/-! ### Stable descending sort facts -/

def SortedDesc (l : List (Doc × Nat)) : Prop :=
  List.Pairwise (fun a b => b.2 ≤ a.2) l

theorem mem_insertDesc {a x : Doc × Nat} {l : List (Doc × Nat)} :
    a ∈ insertDesc x l ↔ a = x ∨ a ∈ l := by
  induction l with
  | nil => simp [insertDesc]
  | cons y ys ih =>
    rw [insertDesc]
    by_cases hc : y.2 < x.2
    · simp [hc]
    · simp only [hc, if_false, List.mem_cons, ih]
      tauto

theorem sortedDesc_insertDesc {x : Doc × Nat} {l : List (Doc × Nat)}
    (hl : SortedDesc l) : SortedDesc (insertDesc x l) := by
  induction l with
  | nil => simp [insertDesc, SortedDesc]
  | cons y ys ih =>
    rw [SortedDesc, List.pairwise_cons] at hl
    obtain ⟨hy, hys⟩ := hl
    rw [insertDesc]
    by_cases hc : y.2 < x.2
    · rw [if_pos hc, SortedDesc, List.pairwise_cons]
      refine ⟨fun z hz => ?_, List.pairwise_cons.mpr ⟨hy, hys⟩⟩
      rcases List.mem_cons.mp hz with rfl | hz
      · exact Nat.le_of_lt hc
      · exact le_trans (hy z hz) (Nat.le_of_lt hc)
    · rw [if_neg hc, SortedDesc, List.pairwise_cons]
      refine ⟨fun z hz => ?_, ih hys⟩
      rcases mem_insertDesc.mp hz with rfl | hz
      · exact Nat.le_of_not_lt hc
      · exact hy z hz

theorem filter_eq_nil_of_lt {s : Nat} {y : Doc × Nat} {ys : List (Doc × Nat)}
    (hs : SortedDesc (y :: ys)) (hy : y.2 < s) :
    (y :: ys).filter (fun p => p.2 == s) = [] := by
  rw [List.filter_eq_nil_iff]
  intro p hp
  rcases List.mem_cons.mp hp with rfl | hp
  · simp only [beq_iff_eq]
    omega
  · have := (List.pairwise_cons.mp hs).1 p hp
    simp only [beq_iff_eq]
    omega

theorem filter_insertDesc (s : Nat) (x : Doc × Nat) (l : List (Doc × Nat))
    (hl : SortedDesc l) :
    (insertDesc x l).filter (fun p => p.2 == s) =
      l.filter (fun p => p.2 == s) ++ (if x.2 = s then [x] else []) := by
  induction l with
  | nil =>
    by_cases hx : x.2 = s <;> simp [insertDesc, List.filter_cons, hx]
  | cons y ys ih =>
    rw [insertDesc]
    by_cases hc : y.2 < x.2
    · rw [if_pos hc]
      by_cases hx : x.2 = s
      · have hnil : (y :: ys).filter (fun p => p.2 == s) = [] :=
          filter_eq_nil_of_lt hl (hx ▸ hc)
        simp [List.filter_cons, hx, hnil]
      · simp [List.filter_cons, hx]
    · rw [if_neg hc]
      have hys : SortedDesc ys := (List.pairwise_cons.mp hl).2
      by_cases hy : y.2 = s <;>
        simp [List.filter_cons, hy, ih hys, List.append_assoc]

theorem sortedDesc_sortDesc_go (l : List (Doc × Nat)) :
    ∀ acc, SortedDesc acc →
      SortedDesc (l.foldl (fun a x => insertDesc x a) acc) := by
  induction l with
  | nil => exact fun acc h => h
  | cons x xs ih => exact fun acc h => ih _ (sortedDesc_insertDesc h)

theorem sortedDesc_sortDesc (l : List (Doc × Nat)) : SortedDesc (sortDesc l) :=
  sortedDesc_sortDesc_go l [] (by simp [SortedDesc])

theorem mem_sortDesc_go (l : List (Doc × Nat)) :
    ∀ acc (a : Doc × Nat),
      a ∈ l.foldl (fun ac x => insertDesc x ac) acc ↔ a ∈ acc ∨ a ∈ l := by
  induction l with
  | nil => simp
  | cons x xs ih =>
    intro acc a
    rw [List.foldl_cons, ih, mem_insertDesc, List.mem_cons]
    tauto

theorem mem_sortDesc {a : Doc × Nat} {l : List (Doc × Nat)} :
    a ∈ sortDesc l ↔ a ∈ l := by
  rw [sortDesc, mem_sortDesc_go]
  simp

theorem filter_sortDesc_go (s : Nat) (l : List (Doc × Nat)) :
    ∀ acc, SortedDesc acc →
      (l.foldl (fun ac x => insertDesc x ac) acc).filter (fun p => p.2 == s) =
        acc.filter (fun p => p.2 == s) ++ l.filter (fun p => p.2 == s) := by
  induction l with
  | nil => intro acc _; simp
  | cons x xs ih =>
    intro acc h
    rw [List.foldl_cons, ih _ (sortedDesc_insertDesc h), filter_insertDesc s x acc h,
      List.filter_cons]
    by_cases hx : x.2 = s <;> simp [hx, List.append_assoc]

theorem filter_sortDesc (s : Nat) (l : List (Doc × Nat)) :
    (sortDesc l).filter (fun p => p.2 == s) = l.filter (fun p => p.2 == s) := by
  rw [sortDesc, filter_sortDesc_go s l [] (by simp [SortedDesc])]
  simp

theorem mem_scoredOf {docs : List Doc} {query : String} {p : Doc × Nat}
    (hp : p ∈ scoredOf docs query) :
    p.1 ∈ docs ∧ p.2 = docScore query p.1 ∧ 0 < p.2 := by
  unfold scoredOf at hp
  rw [List.mem_filterMap] at hp
  obtain ⟨d, hd, hfd⟩ := hp
  by_cases h : 0 < docScore query d
  · rw [if_pos h] at hfd
    injection hfd with h2
    subst h2
    exact ⟨hd, rfl, h⟩
  · rw [if_neg h] at hfd
    cases hfd

theorem scoreDoc_eq_sum (keywords : List String)
    (hk : ∀ kw ∈ keywords, kw ≠ "") (content title : String) :
    scoreDoc keywords content title =
      (keywords.map (fun kw => countOccurS kw content + 2 * countOccurS kw title)).sum := by
  have key : ∀ (kws : List String), (∀ kw ∈ kws, kw ≠ "") → ∀ init : Nat,
      kws.foldl
        (fun s kw =>
          let s1 := if containsSubS kw content then s + countOccurS kw content else s
          if containsSubS kw title then s1 + countOccurS kw title * 2 else s1)
        init =
      init + (kws.map (fun kw => countOccurS kw content + 2 * countOccurS kw title)).sum := by
    intro kws
    induction kws with
    | nil => intro _ init; simp
    | cons kw rest ih =>
      intro hk0 init
      have hkw : kw.data ≠ [] := data_ne_nil_of_ne_empty (hk0 kw (by simp))
      rw [List.foldl_cons, List.map_cons, List.sum_cons,
        ih (fun k hk' => hk0 k (List.mem_cons_of_mem _ hk'))]
      have hstep :
          (let s1 := if containsSubS kw content then init + countOccurS kw content else init
           if containsSubS kw title then s1 + countOccurS kw title * 2 else s1) =
            init + (countOccurS kw content + 2 * countOccurS kw title) := by
        by_cases h1 : containsSubS kw content = true
        · by_cases h2 : containsSubS kw title = true
          · simp only [h1, h2, if_true]
            ring
          · have hz : countOccurS kw title = 0 :=
              countOccur_eq_zero_of_not_containsSub hkw
                (by simpa [containsSubS] using h2)
            simp only [h1, if_true, Bool.not_eq_true] at *
            simp [h2, hz]
        · have hz : countOccurS kw content = 0 :=
            countOccur_eq_zero_of_not_containsSub hkw
              (by simpa [containsSubS] using h1)
          by_cases h2 : containsSubS kw title = true
          · simp only [Bool.not_eq_true] at h1
            simp [h1, h2, hz]
            ring
          · have hz2 : countOccurS kw title = 0 :=
              countOccur_eq_zero_of_not_containsSub hkw
                (by simpa [containsSubS] using h2)
            simp only [Bool.not_eq_true] at h1 h2
            simp [h1, h2, hz, hz2]
      rw [hstep]
      omega
  rw [scoreDoc, key keywords hk 0]
  simp

theorem scoreDoc_title_only (keywords : List String)
    (hk : ∀ kw ∈ keywords, kw ≠ "") (content title : String)
    (hc : ∀ kw ∈ keywords, countOccurS kw content = 0) :
    scoreDoc keywords content title =
      2 * (keywords.map (fun kw => countOccurS kw title)).sum := by
  rw [scoreDoc_eq_sum keywords hk]
  have hmap : keywords.map (fun kw => countOccurS kw content + 2 * countOccurS kw title) =
      keywords.map (fun kw => 2 * countOccurS kw title) := by
    apply List.map_congr_left
    intro kw hkw
    rw [hc kw hkw, Nat.zero_add]
  rw [hmap, ← List.sum_map_mul_left]

/-- C2: `retrieve_context` lowercases and whitespace-tokenizes the query,
scores each corpus entry as the sum over keywords of body occurrences plus
twice title occurrences, drops zero-score entries, sorts the rest
descending by score with ties keeping corpus order, and returns at most
the top three; an entry whose keyword occurrences are all in its title
scores exactly twice that occurrence count. -/
theorem retrieve_context_spec (docs : List Doc) (query : String) :
    (retrieve_context docs query).length ≤ 3 ∧
    (∀ d ∈ retrieve_context docs query, d ∈ docs ∧ 0 < docScore query d) ∧
    (∀ d ∈ docs, docScore query d = 0 → d ∉ retrieve_context docs query) ∧
    List.Pairwise (fun a b => docScore query b ≤ docScore query a)
      (retrieve_context docs query) ∧
    (∀ content title : String,
      scoreDoc (queryKeywords query) content title =
        ((queryKeywords query).map
          (fun kw => countOccurS kw content + 2 * countOccurS kw title)).sum) ∧
    (∀ s : Nat,
      ((sortDesc (scoredOf docs query)).take 3).filter (fun p => p.2 == s) <+:
        (scoredOf docs query).filter (fun p => p.2 == s)) ∧
    (∀ p ∈ scoredOf docs query, p ∉ (sortDesc (scoredOf docs query)).take 3 →
      ∀ r ∈ (sortDesc (scoredOf docs query)).take 3, p.2 ≤ r.2) ∧
    (∀ content title : String,
      (∀ kw ∈ queryKeywords query, countOccurS kw content = 0) →
      scoreDoc (queryKeywords query) content title =
        2 * ((queryKeywords query).map (fun kw => countOccurS kw title)).sum) := by
  have hkeys : ∀ kw ∈ queryKeywords query, kw ≠ "" := by
    intro kw hkw
    exact mem_pySplit_ne_empty hkw
  have hmem : ∀ d ∈ retrieve_context docs query, d ∈ docs ∧ 0 < docScore query d := by
    intro d hd
    unfold retrieve_context at hd
    rw [List.mem_map] at hd
    obtain ⟨p, hp, rfl⟩ := hd
    have hp2 : p ∈ sortDesc (scoredOf docs query) :=
      (List.take_sublist 3 _).mem hp
    have hp3 : p ∈ scoredOf docs query := mem_sortDesc.mp hp2
    obtain ⟨hd1, hd2, hd3⟩ := mem_scoredOf hp3
    exact ⟨hd1, by rw [← hd2]; exact hd3⟩
  refine ⟨?_, hmem, ?_, ?_, ?_, ?_, ?_, ?_⟩
  · unfold retrieve_context
    rw [List.length_map]
    exact List.length_take_le 3 _
  · intro d _ hscore hd
    have := (hmem d hd).2
    omega
  · unfold retrieve_context
    rw [List.pairwise_map]
    have hsorted : SortedDesc ((sortDesc (scoredOf docs query)).take 3) :=
      List.Pairwise.sublist (List.take_sublist 3 _)
        (sortedDesc_sortDesc (scoredOf docs query))
    refine List.Pairwise.imp_of_mem ?_ hsorted
    intro a b ha hb hab
    have ha2 := mem_scoredOf (mem_sortDesc.mp ((List.take_sublist 3 _).mem ha))
    have hb2 := mem_scoredOf (mem_sortDesc.mp ((List.take_sublist 3 _).mem hb))
    rw [← ha2.2.1, ← hb2.2.1]
    exact hab
  · intro content title
    exact scoreDoc_eq_sum _ hkeys content title
  · intro s
    have h1 : ((sortDesc (scoredOf docs query)).take 3).filter (fun p => p.2 == s) <+:
        (sortDesc (scoredOf docs query)).filter (fun p => p.2 == s) :=
      List.IsPrefix.filter _ (List.take_prefix 3 _)
    rwa [filter_sortDesc] at h1
  · intro p hp hpt r hr
    have hps : p ∈ sortDesc (scoredOf docs query) := mem_sortDesc.mpr hp
    have hsplit := List.take_append_drop 3 (sortDesc (scoredOf docs query))
    have hsorted := sortedDesc_sortDesc (scoredOf docs query)
    rw [SortedDesc, ← hsplit, List.pairwise_append] at hsorted
    have hpd : p ∈ (sortDesc (scoredOf docs query)).drop 3 := by
      rw [← hsplit, List.mem_append] at hps
      tauto
    exact hsorted.2.2 r hr p hpd
  · intro content title hc
    exact scoreDoc_title_only _ hkeys content title hc

/-- Witness for C2 on a concrete two-entry corpus and query: result fits in
three entries, the title-only entry is returned with positive score, and
its score is twice its title occurrence count. -/
theorem retrieve_context_spec_witness :
    (retrieve_context [⟨"alpha beta beta", "gamma"⟩, ⟨"", "nust nust"⟩] "NUST beta").length ≤ 3 ∧
    ((⟨"", "nust nust"⟩ : Doc) ∈ [(⟨"alpha beta beta", "gamma"⟩ : Doc), ⟨"", "nust nust"⟩] ∧
      0 < docScore "NUST beta" ⟨"", "nust nust"⟩) ∧
    scoreDoc (queryKeywords "NUST beta") "" "nust nust" =
      2 * ((queryKeywords "NUST beta").map (fun kw => countOccurS kw "nust nust")).sum :=
  ⟨(retrieve_context_spec [⟨"alpha beta beta", "gamma"⟩, ⟨"", "nust nust"⟩] "NUST beta").1,
   (retrieve_context_spec [⟨"alpha beta beta", "gamma"⟩, ⟨"", "nust nust"⟩] "NUST beta").2.1
     ⟨"", "nust nust"⟩ (by decide),
   (retrieve_context_spec [⟨"alpha beta beta", "gamma"⟩, ⟨"", "nust nust"⟩] "NUST beta").2.2.2.2.2.2.2
     "" "nust nust" (by decide)⟩

/-! ## Tool registry (`_create_tools`, unified_agent.py lines 236-382)

Each tool is embedded as a pure function of its arguments and of the
outcomes its collaborators (the SQLite store and the email service) would
deliver: `Outcome α` is a collaborator call that either returns an `α` or
raises with a message, and `EmailOutcome` is a notification attempt that
either raises or returns a `{success, message}` record. The tool returns
its JSON result (fields absent from a branch are `none`) together with
the list of notification calls it issued, so "how many notifications were
attempted" is part of the function's value. `Student` carries the four
string columns the tools read; timestamp columns are omitted as no tool
logic depends on them. -/

inductive Outcome (α : Type)
  | ok (a : α)
  | exn (msg : String)
deriving DecidableEq, Repr

inductive EmailOutcome
  | raises (msg : String)
  | returns (success : Bool) (message : String)
deriving DecidableEq, Repr

structure Student where
  id : String
  name : String
  department : String
  email : String
deriving DecidableEq, Repr

structure ToolResult where
  success : Option Bool := none
  message : Option String := none
  email_sent : Option Bool := none
  email_status : Option String := none
  error : Option String := none
deriving DecidableEq, Repr

inductive EmailCall
  | welcome (studentId recipient name department email : String)
  | updateNotice (studentId recipient name field oldValue newValue : String)
deriving DecidableEq, Repr

/-- `student.get(field, "N/A")` on the four string columns. -/
def studentField (st : Student) (field : String) : String :=
  if field = "id" then st.id
  else if field = "name" then st.name
  else if field = "department" then st.department
  else if field = "email" then st.email
  else "N/A"

def add_student_tool (name sid dept email : String)
    (dbAdd : Outcome Bool) (emailOut : EmailOutcome) : ToolResult × List EmailCall :=
  match dbAdd with
  | .ok true =>
    let call := EmailCall.welcome sid email name dept email
    match emailOut with
    | .returns esucc emsg =>
      ({ success := some true,
         message := some ("Student " ++ name ++ " (ID: " ++ sid ++ ") added successfully"),
         email_sent := some esucc,
         email_status := some emsg }, [call])
    | .raises e =>
      ({ success := some true,
         message := some ("Student " ++ name ++ " added but email failed: " ++ e) }, [call])
  | .ok false =>
    ({ success := some false,
       message := some "Failed to add student. ID or email might already exist." }, [])
  | .exn e =>
    ({ error := some ("Failed to add student: " ++ e) }, [])

def update_student_info (sid field newValue : String)
    (dbGet : Outcome (Option Student)) (dbUpd : Outcome Bool)
    (emailOut : EmailOutcome) : ToolResult × List EmailCall :=
  match dbGet with
  | .exn e => ({ error := some ("Failed to update student: " ++ e) }, [])
  | .ok none =>
    ({ success := some false,
       message := some ("Student with ID " ++ sid ++ " not found") }, [])
  | .ok (some st) =>
    match dbUpd with
    | .exn e => ({ error := some ("Failed to update student: " ++ e) }, [])
    | .ok false =>
      ({ success := some false,
         message := some ("Failed to update " ++ field ++ ". Invalid field name.") }, [])
    | .ok true =>
      let call := EmailCall.updateNotice sid st.email st.name field
        (studentField st field) newValue
      match emailOut with
      | .returns esucc _ =>
        ({ success := some true,
           message := some ("Student " ++ sid ++ " " ++ field ++ " updated to " ++ newValue),
           email_sent := some esucc }, [call])
      | .raises e =>
        ({ success := some true,
           message := some ("Student updated but notification failed: " ++ e) }, [call])

def delete_student_tool (sid : String)
    (dbGet : Outcome (Option Student)) (dbDel : Outcome Bool) :
    ToolResult × List EmailCall :=
  match dbGet with
  | .exn e => ({ error := some ("Failed to delete student: " ++ e) }, [])
  | .ok none =>
    ({ success := some false,
       message := some ("Student with ID " ++ sid ++ " not found") }, [])
  | .ok (some _) =>
    match dbDel with
    | .exn e => ({ error := some ("Failed to delete student: " ++ e) }, [])
    | .ok true =>
      ({ success := some true,
         message := some ("Student " ++ sid ++
           " deleted successfully (No email notification sent)"),
         email_sent := some false }, [])
    | .ok false =>
      ({ success := some false, message := some "Failed to delete student" }, [])

/-- C4 counterexample: for an unknown student id the delete tool's result
carries no `email_sent` field at all (it is `none`, not `false`), so the
result does not report `email_sent: false` unconditionally — though
even there the tool makes zero notification calls. -/
theorem delete_student_claim_counterexample :
    (delete_student_tool "STU999" (.ok none) (.ok true)).1.email_sent = none ∧
    (delete_student_tool "STU999" (.ok none) (.ok true)).2 = [] := by
  constructor <;> rfl

/-- C4 amended: for every student id and collaborator outcome the delete
tool performs zero notification calls; its result never reports
`email_sent: true`; and whenever it reports success it reports
`email_sent: false` (the `email_sent` field is absent from failure and
error results). -/
theorem delete_student_spec (sid : String) (dbGet : Outcome (Option Student))
    (dbDel : Outcome Bool) :
    (delete_student_tool sid dbGet dbDel).2 = [] ∧
    (delete_student_tool sid dbGet dbDel).1.email_sent ≠ some true ∧
    ((delete_student_tool sid dbGet dbDel).1.success = some true →
      (delete_student_tool sid dbGet dbDel).1.email_sent = some false) := by
  rcases dbGet with st | e
  · rcases st with _ | st
    · exact ⟨rfl, by simp [delete_student_tool], by intro h; simp [delete_student_tool] at h⟩
    · rcases dbDel with b | e
      · rcases b with _ | _
        · exact ⟨rfl, by simp [delete_student_tool], by intro h; simp [delete_student_tool] at h⟩
        · exact ⟨rfl, by simp [delete_student_tool], fun _ => rfl⟩
      · exact ⟨rfl, by simp [delete_student_tool], by intro h; simp [delete_student_tool] at h⟩
  · exact ⟨rfl, by simp [delete_student_tool], by intro h; simp [delete_student_tool] at h⟩

/-- Witness for C4 (amended) at a successful deletion of a known student. -/
theorem delete_student_spec_witness :
    (delete_student_tool "STU003"
      (.ok (some ⟨"STU003", "Hassan Ali", "Engineering", "hassan.ali@nust.edu.pk"⟩))
      (.ok true)).2 = [] ∧
    (delete_student_tool "STU003"
      (.ok (some ⟨"STU003", "Hassan Ali", "Engineering", "hassan.ali@nust.edu.pk"⟩))
      (.ok true)).1.email_sent = some false :=
  ⟨(delete_student_spec "STU003"
      (.ok (some ⟨"STU003", "Hassan Ali", "Engineering", "hassan.ali@nust.edu.pk"⟩))
      (.ok true)).1,
   (delete_student_spec "STU003"
      (.ok (some ⟨"STU003", "Hassan Ali", "Engineering", "hassan.ali@nust.edu.pk"⟩))
      (.ok true)).2.2 rfl⟩

/-- C5: whenever the primary storage effect succeeds, `add_student_tool`
and `update_student_info` each attempt exactly one notification call, and
whatever the notification outcome (raise or failure result) the tool's own
success flag stays `true`. -/
theorem notify_on_success_spec
    (name sid dept email field newValue : String) (st : Student)
    (dbAdd dbUpd : Outcome Bool) (dbGet : Outcome (Option Student))
    (emailOut emailOut2 : EmailOutcome) :
    (dbAdd = .ok true →
      (add_student_tool name sid dept email dbAdd emailOut).2.length = 1 ∧
      (add_student_tool name sid dept email dbAdd emailOut).1.success = some true) ∧
    (dbGet = .ok (some st) → dbUpd = .ok true →
      (update_student_info sid field newValue dbGet dbUpd emailOut2).2.length = 1 ∧
      (update_student_info sid field newValue dbGet dbUpd emailOut2).1.success = some true) := by
  constructor
  · rintro rfl
    cases emailOut <;> exact ⟨rfl, rfl⟩
  · rintro rfl rfl
    cases emailOut2 <;> exact ⟨rfl, rfl⟩

/-- Witness for C5: a raising welcome email and a failure-result update
notification, each after a successful primary effect. -/
theorem notify_on_success_spec_witness :
    (add_student_tool "Ali Ahmed" "STU011" "Computer Science" "ali@x.edu"
      (.ok true) (.raises "smtp down")).2.length = 1 ∧
    (add_student_tool "Ali Ahmed" "STU011" "Computer Science" "ali@x.edu"
      (.ok true) (.raises "smtp down")).1.success = some true ∧
    (update_student_info "STU001" "email" "new@x.edu"
      (.ok (some ⟨"STU001", "Ali Ahmed", "Computer Science", "ali.ahmed@nust.edu.pk"⟩))
      (.ok true) (.returns false "delivery failed")).2.length = 1 ∧
    (update_student_info "STU001" "email" "new@x.edu"
      (.ok (some ⟨"STU001", "Ali Ahmed", "Computer Science", "ali.ahmed@nust.edu.pk"⟩))
      (.ok true) (.returns false "delivery failed")).1.success = some true := by
  refine ⟨?_, ?_, ?_, ?_⟩
  · exact ((notify_on_success_spec "Ali Ahmed" "STU011" "Computer Science" "ali@x.edu"
      "f" "v" ⟨"STU001", "Ali Ahmed", "Computer Science", "ali.ahmed@nust.edu.pk"⟩
      (.ok true) (.ok true) (.ok none) (.raises "smtp down") (.raises "x")).1 rfl).1
  · exact ((notify_on_success_spec "Ali Ahmed" "STU011" "Computer Science" "ali@x.edu"
      "f" "v" ⟨"STU001", "Ali Ahmed", "Computer Science", "ali.ahmed@nust.edu.pk"⟩
      (.ok true) (.ok true) (.ok none) (.raises "smtp down") (.raises "x")).1 rfl).2
  · exact ((notify_on_success_spec "n" "s" "d" "e" "email" "new@x.edu"
      ⟨"STU001", "Ali Ahmed", "Computer Science", "ali.ahmed@nust.edu.pk"⟩
      (.ok true) (.ok true)
      (.ok (some ⟨"STU001", "Ali Ahmed", "Computer Science", "ali.ahmed@nust.edu.pk"⟩))
      (.raises "x") (.returns false "delivery failed")).2 rfl rfl).1
  · exact ((notify_on_success_spec "n" "s" "d" "e" "email" "new@x.edu"
      ⟨"STU001", "Ali Ahmed", "Computer Science", "ali.ahmed@nust.edu.pk"⟩
      (.ok true) (.ok true)
      (.ok (some ⟨"STU001", "Ali Ahmed", "Computer Science", "ali.ahmed@nust.edu.pk"⟩))
      (.raises "x") (.returns false "delivery failed")).2 rfl rfl).2

/-- C7: the intent classifier is a pure total function; an utterance
containing an information-query keyword (after lowercasing, at any
position) is classified `nust_info`; one containing an administrative
keyword but no information-query keyword is classified `campus_admin`;
one containing neither is classified `general`. -/
theorem classify_query_spec (query : String) :
    ((∃ k ∈ nust_keywords, containsSubS k (pyLower query) = true) →
      classify_query query = .nust_info) ∧
    ((∀ k ∈ nust_keywords, containsSubS k (pyLower query) = false) →
      (∃ k ∈ admin_keywords, containsSubS k (pyLower query) = true) →
      classify_query query = .campus_admin) ∧
    ((∀ k ∈ nust_keywords, containsSubS k (pyLower query) = false) →
      (∀ k ∈ admin_keywords, containsSubS k (pyLower query) = false) →
      classify_query query = .general) := by
  unfold classify_query
  refine ⟨fun h => ?_, fun h1 h2 => ?_, fun h1 h2 => ?_⟩
  · rw [if_pos]
    exact List.any_eq_true.mpr (by simpa using h)
  · rw [if_neg, if_pos]
    · exact List.any_eq_true.mpr (by simpa using h2)
    · simp only [List.any_eq_true, not_exists, not_and]
      intro k hk
      simp [h1 k hk]
  · rw [if_neg, if_neg]
    · simp only [List.any_eq_true, not_exists, not_and]
      intro k hk
      simp [h2 k hk]
    · simp only [List.any_eq_true, not_exists, not_and]
      intro k hk
      simp [h1 k hk]

/-- Witness for C7 at three concrete utterances, one per branch. -/
theorem classify_query_spec_witness :
    classify_query "Tell me about NUST admissions" = .nust_info ∧
    classify_query "Please add student Bob to Physics" = .campus_admin ∧
    classify_query "hello there" = .general :=
  ⟨(classify_query_spec "Tell me about NUST admissions").1 (by decide),
   (classify_query_spec "Please add student Bob to Physics").2.1 (by decide) (by decide),
   (classify_query_spec "hello there").2.2 (by decide) (by decide)⟩

/-- C3 counterexample: the claim says the institution name is prepended
exactly when the query does not already reference the institution, but on
`"weather in Lahore"` (which does not reference it) the code sends the
query unmodified. -/
theorem searchQuery_claim_counterexample :
    containsSubS "nust" (pyLower "weather in Lahore") = false ∧
    searchQuery "weather in Lahore" = "weather in Lahore" := by
  constructor
  · decide
  · rfl

/-- C3 amended: the query sent to the provider is the original query with
`"NUST University Pakistan "` prepended exactly when the original query
does reference the institution (contains `"nust"` case-insensitively),
and is the unmodified query otherwise. -/
theorem searchQuery_spec (query : String) :
    (containsSubS "nust" (pyLower query) = true →
      searchQuery query = "NUST University Pakistan " ++ query) ∧
    (containsSubS "nust" (pyLower query) = false →
      searchQuery query = query) := by
  unfold searchQuery
  constructor
  · intro h
    rw [if_pos h]
  · intro h
    rw [if_neg (by simp [h])]

/-- Witness for C3 (amended) at one referencing and one non-referencing query. -/
theorem searchQuery_spec_witness :
    searchQuery "nust fee structure" = "NUST University Pakistan nust fee structure" ∧
    searchQuery "weather today" = "weather today" :=
  ⟨(searchQuery_spec "nust fee structure").1 (by decide),
   (searchQuery_spec "weather today").2 (by decide)⟩

/-! ## Session store and chat (`UnifiedCampusAgent`, unified_agent.py lines 209-660)

The in-process `self.sessions` dict is a map from session id to session
record. `create_session` mirrors lines 209-230 including Python's
truthiness test on the optional id (an empty string counts as absent, so
a fresh uuid — passed in as `freshId` — is used instead). `chat` mirrors
lines 600-660: resolve the session id, create the session if absent,
touch `last_activity`, run the graph (its outcome is the collaborator
parameter), pick the response text, append the user and assistant history
entries, and convert any escaping exception into an apology record.
Timestamps are opaque strings supplied as `now`. -/

structure HistEntry where
  role : String
  content : String
  timestamp : String
deriving DecidableEq, Repr

structure Session where
  session_id : String
  user_id : String
  created_at : String
  last_activity : String
  conversation_history : List HistEntry
deriving DecidableEq, Repr

def SessionStore : Type := String → Option Session

def storeSet (store : SessionStore) (sid : String) (sess : Session) : SessionStore :=
  fun k => if k = sid then some sess else store k

/-- Python truthiness of the optional session id argument. -/
def providedSid (session_id : Option String) : Option String :=
  match session_id with
  | some s => if s = "" then none else some s
  | none => none

def create_session (store : SessionStore) (user_id : String)
    (session_id : Option String) (freshId now : String) : String × SessionStore :=
  match providedSid session_id with
  | some sid =>
    if (store sid).isSome then (sid, store)
    else (sid, storeSet store sid ⟨sid, user_id, now, now, []⟩)
  | none =>
    if (store freshId).isSome then (freshId, store)
    else (freshId, storeSet store freshId ⟨freshId, user_id, now, now, []⟩)

structure GraphResult where
  final_answer : String
  messages : List (Bool × String)
deriving DecidableEq, Repr

/-- Response selection of `chat` (lines 630-640): a non-empty
`final_answer` wins, otherwise the last AI message, otherwise the fixed
fallback text. -/
def pickResponse (r : GraphResult) : String :=
  if r.final_answer ≠ "" then r.final_answer
  else
    match r.messages.reverse.find? (fun m => m.1) with
    | some m => m.2
    | none => "I\x27m sorry, I couldn\x27t process your request properly."

/-- `call_model` (lines 459-495): an LLM failure becomes an AI message
carrying the error text instead of an exception. -/
def call_model (llmOutcome : Outcome String) : List (Bool × String) :=
  match llmOutcome with
  | .ok content => [(true, content)]
  | .exn e => [(true, "I encountered an error: " ++ e)]

structure ChatReturn where
  response : String
  session_id : String
  timestamp : String
deriving DecidableEq, Repr

/-- Session id resolution at the top of `chat` (lines 604-605), with
Python truthiness: absent or empty means a fresh uuid. -/
def resolveSid (session_id : Option String) (freshId : String) : String :=
  match session_id with
  | some s => if s = "" then freshId else s
  | none => freshId

def chat (store : SessionStore) (message : String) (session_id : Option String)
    (freshId now : String) (graphOutcome : Outcome GraphResult) :
    ChatReturn × SessionStore :=
  let sid := resolveSid session_id freshId
  let store1 := if (store sid).isSome then store
    else (create_session store "default_user" (some sid) freshId now).2
  match store1 sid with
  | none =>
    -- a missing session would raise KeyError, caught by the handler
    ({ response := "I encountered an error while processing your request: " ++ sid,
       session_id := sid, timestamp := now }, store1)
  | some sess =>
    let store2 := storeSet store1 sid { sess with last_activity := now }
    match graphOutcome with
    | .exn e =>
      ({ response := "I encountered an error while processing your request: " ++ e,
         session_id := sid, timestamp := now }, store2)
    | .ok r =>
      let resp := pickResponse r
      ({ response := resp, session_id := sid, timestamp := now },
       storeSet store2 sid
         { sess with
           last_activity := now,
           conversation_history := sess.conversation_history ++
             [⟨"user", message, now⟩, ⟨"assistant", resp, now⟩] })

theorem resolveSid_some (s freshId : String) :
    resolveSid (some s) freshId = if s = "" then freshId else s := rfl

theorem resolveSid_none (freshId : String) :
    resolveSid none freshId = freshId := rfl

theorem create_session_provided (store : SessionStore) (u sid f n : String)
    (hs : sid ≠ "") :
    create_session store u (some sid) f n =
      if (store sid).isSome then (sid, store)
      else (sid, storeSet store sid ⟨sid, u, n, n, []⟩) := by
  simp only [create_session, providedSid, if_neg hs]

theorem create_session_empty_sid (store : SessionStore) (u sid f n : String)
    (hs : sid = "") :
    create_session store u (some sid) f n =
      if (store f).isSome then (f, store)
      else (f, storeSet store f ⟨f, u, n, n, []⟩) := by
  simp only [create_session, providedSid, if_pos hs]

/-- The session looked up by `chat` after the create-if-absent step is
always present. -/
theorem chat_session_present (store : SessionStore) (session_id : Option String)
    (freshId now : String) :
    ((if (store (resolveSid session_id freshId)).isSome then store
      else (create_session store "default_user"
        (some (resolveSid session_id freshId)) freshId now).2)
      (resolveSid session_id freshId)).isSome = true := by
  set sid := resolveSid session_id freshId with hsid
  by_cases h : (store sid).isSome
  · rw [if_pos h]
    exact h
  · rw [if_neg h]
    by_cases hs : sid = ""
    · have hf : freshId = "" := by
        rw [hsid] at hs
        cases session_id with
        | none => rw [resolveSid_none] at hs; exact hs
        | some s =>
          rw [resolveSid_some] at hs
          by_cases hse : s = ""
          · rw [if_pos hse] at hs; exact hs
          · rw [if_neg hse] at hs; exact absurd hs hse
      rw [create_session_empty_sid store _ _ _ _ hs]
      have h2 : ¬ (store freshId).isSome = true := by
        rw [hf, ← hs]
        exact h
      rw [if_neg h2]
      rw [hs, hf]
      simp [storeSet]
    · rw [create_session_provided store _ _ _ _ hs, if_neg h]
      simp [storeSet]

/-- C6: `chat` never propagates an exception: every collaborator outcome
yields a well-shaped `{response, session_id, timestamp}` record; a graph
exception is converted into the apology text carrying its detail; a
successful graph run returns the picked response; and inside the graph,
`call_model` converts an LLM exception into an error-text AI message
instead of raising. -/
theorem chat_spec (store : SessionStore) (message : String)
    (session_id : Option String) (freshId now : String)
    (graphOutcome : Outcome GraphResult) :
    (chat store message session_id freshId now graphOutcome).1.session_id =
      resolveSid session_id freshId ∧
    (chat store message session_id freshId now graphOutcome).1.timestamp = now ∧
    (∀ e, graphOutcome = .exn e →
      (chat store message session_id freshId now graphOutcome).1.response =
        "I encountered an error while processing your request: " ++ e) ∧
    (∀ r, graphOutcome = .ok r →
      (chat store message session_id freshId now graphOutcome).1.response =
        pickResponse r) ∧
    (∀ (llmOutcome : Outcome String) (e : String), llmOutcome = .exn e →
      call_model llmOutcome = [(true, "I encountered an error: " ++ e)]) := by
  have hpresent := chat_session_present store session_id freshId now
  obtain ⟨sess, hsess⟩ := Option.isSome_iff_exists.mp hpresent
  simp only [chat]
  rw [hsess]
  cases graphOutcome with
  | exn e =>
    refine ⟨rfl, rfl, ?_, ?_, ?_⟩
    · intro e' he'
      injection he' with h
      rw [h]
    · intro r hr
      cases hr
    · intro l e' hl
      rw [hl]
      rfl
  | ok r =>
    refine ⟨rfl, rfl, ?_, ?_, ?_⟩
    · intro e' he'
      cases he'
    · intro r' hr'
      injection hr' with h
      rw [h]
    · intro l e' hl
      rw [hl]
      rfl

/-- Witness for C6 at a concrete store, session and failing graph run. -/
theorem chat_spec_witness :
    (chat (fun _ => none) "hello" (some "S1") "F1" "t1" (.exn "boom")).1.response =
      "I encountered an error while processing your request: boom" ∧
    call_model (.exn "llm down") = [(true, "I encountered an error: llm down")] :=
  ⟨(chat_spec (fun _ => none) "hello" (some "S1") "F1" "t1" (.exn "boom")).2.2.1 "boom" rfl,
   (chat_spec (fun _ => none) "hello" (some "S1") "F1" "t1" (.exn "boom")).2.2.2.2
     (.exn "llm down") "llm down" rfl⟩

/-- History effect of one streamed turn (`stream_chat`, lines 674-680 and
860-866): the user entry is appended before production, the assistant
entry after it, and only when the produced text is non-empty. -/
def stream_history_effect (hist : List HistEntry)
    (message full_content now : String) : List HistEntry :=
  (hist ++ [⟨"user", message, now⟩]) ++
    (if full_content = "" then [] else [⟨"assistant", full_content, now⟩])

/-- The session store after `chat`'s create-if-absent step holds a session
whose history is that of the stored session (empty for a fresh one), and
other keys are untouched. -/
theorem chat_store1_facts (store : SessionStore) (session_id : Option String)
    (freshId now : String) :
    ∃ sess : Session,
      (if (store (resolveSid session_id freshId)).isSome then store
        else (create_session store "default_user"
          (some (resolveSid session_id freshId)) freshId now).2)
        (resolveSid session_id freshId) = some sess ∧
      sess.conversation_history =
        (match store (resolveSid session_id freshId) with
          | some s => s.conversation_history
          | none => []) ∧
      (∀ k, k ≠ resolveSid session_id freshId →
        (if (store (resolveSid session_id freshId)).isSome then store
          else (create_session store "default_user"
            (some (resolveSid session_id freshId)) freshId now).2) k = store k) := by
  set sid := resolveSid session_id freshId with hsid
  by_cases h : (store sid).isSome
  · obtain ⟨s, hs⟩ := Option.isSome_iff_exists.mp h
    refine ⟨s, ?_, ?_, ?_⟩
    · rw [if_pos h]
      exact hs
    · rw [hs]
    · intro k _
      rw [if_pos h]
  · have hnone : store sid = none := Option.not_isSome_iff_eq_none.mp (by simpa using h)
    by_cases hs : sid = ""
    · have hf : freshId = "" := by
        rw [hsid] at hs
        cases session_id with
        | none => rw [resolveSid_none] at hs; exact hs
        | some s =>
          rw [resolveSid_some] at hs
          by_cases hse : s = ""
          · rw [if_pos hse] at hs; exact hs
          · rw [if_neg hse] at hs; exact absurd hs hse
      have hkey : freshId = sid := by rw [hf, hs]
      refine ⟨⟨freshId, "default_user", now, now, []⟩, ?_, ?_, ?_⟩
      · rw [if_neg h, create_session_empty_sid store _ _ _ _ hs,
          if_neg (by rw [hkey]; simpa using h)]
        simp [storeSet, hkey]
      · rw [hnone]
      · intro k hk
        rw [if_neg h, create_session_empty_sid store _ _ _ _ hs,
          if_neg (by rw [hkey]; simpa using h)]
        simp [storeSet, hkey, hk]
    · refine ⟨⟨sid, "default_user", now, now, []⟩, ?_, ?_, ?_⟩
      · rw [if_neg h, create_session_provided store _ _ _ _ hs, if_neg h]
        simp [storeSet]
      · rw [hnone]
      · intro k hk
        rw [if_neg h, create_session_provided store _ _ _ _ hs, if_neg h]
        simp [storeSet, hk]

/-- C8: a completed `chat` turn appends exactly the user entry followed by
the assistant entry to the session's history and updates its last
activity; sessions under other keys are untouched; for every outcome the
prior history is preserved as a prefix (nothing is removed or reordered);
and a streamed turn with non-empty produced text likewise appends exactly
the user then the assistant entry. -/
theorem chat_history_spec (store : SessionStore) (message : String)
    (session_id : Option String) (freshId now : String)
    (graphOutcome : Outcome GraphResult) :
    (∀ r, graphOutcome = .ok r →
      ((chat store message session_id freshId now graphOutcome).2
          (resolveSid session_id freshId)).map (fun s => s.conversation_history) =
        some ((match store (resolveSid session_id freshId) with
            | some s => s.conversation_history
            | none => []) ++
          [⟨"user", message, now⟩, ⟨"assistant", pickResponse r, now⟩])) ∧
    ((chat store message session_id freshId now graphOutcome).2
        (resolveSid session_id freshId)).map (fun s => s.last_activity) = some now ∧
    (∀ k, k ≠ resolveSid session_id freshId →
      (chat store message session_id freshId now graphOutcome).2 k = store k) ∧
    (∃ tailH : List HistEntry,
      ((chat store message session_id freshId now graphOutcome).2
          (resolveSid session_id freshId)).map (fun s => s.conversation_history) =
        some ((match store (resolveSid session_id freshId) with
            | some s => s.conversation_history
            | none => []) ++ tailH)) ∧
    (∀ (hist : List HistEntry) (msg c n : String), c ≠ "" →
      stream_history_effect hist msg c n =
        hist ++ [⟨"user", msg, n⟩, ⟨"assistant", c, n⟩]) ∧
    (∀ (hist : List HistEntry) (msg c n : String),
      ∃ tailH : List HistEntry, stream_history_effect hist msg c n = hist ++ tailH) := by
  obtain ⟨sess, hsess, hhist, hother⟩ := chat_store1_facts store session_id freshId now
  have hstream : ∀ (hist : List HistEntry) (msg c n : String), c ≠ "" →
      stream_history_effect hist msg c n =
        hist ++ [⟨"user", msg, n⟩, ⟨"assistant", c, n⟩] := by
    intro hist msg c n hc
    rw [stream_history_effect, if_neg hc, List.append_assoc]
    rfl
  have hstream2 : ∀ (hist : List HistEntry) (msg c n : String),
      ∃ tailH : List HistEntry, stream_history_effect hist msg c n = hist ++ tailH := by
    intro hist msg c n
    by_cases hc : c = ""
    · exact ⟨[⟨"user", msg, n⟩], by rw [stream_history_effect, if_pos hc]; simp⟩
    · exact ⟨[⟨"user", msg, n⟩, ⟨"assistant", c, n⟩], hstream hist msg c n hc⟩
  simp only [chat]
  rw [hsess]
  cases graphOutcome with
  | exn e =>
    refine ⟨?_, ?_, ?_, ?_, hstream, hstream2⟩
    · intro r hr
      cases hr
    · simp [storeSet]
    · intro k hk
      simp only [storeSet, if_neg hk]
      exact hother k hk
    · refine ⟨[], ?_⟩
      rw [List.append_nil, ← hhist]
      simp [storeSet]
  | ok r =>
    refine ⟨?_, ?_, ?_, ?_, hstream, hstream2⟩
    · intro r' hr'
      injection hr' with h
      subst h
      rw [← hhist]
      simp [storeSet]
    · simp [storeSet]
    · intro k hk
      simp only [storeSet, if_neg hk]
      exact hother k hk
    · refine ⟨[⟨"user", message, now⟩, ⟨"assistant", pickResponse r, now⟩], ?_⟩
      rw [← hhist]
      simp [storeSet]

/-- Witness for C8 at a fresh session and a successful graph run. -/
theorem chat_history_spec_witness :
    ((chat (fun _ => none) "hi" none "F" "t2"
        (.ok ⟨"ans", []⟩)).2 (resolveSid none "F")).map
      (fun s => s.conversation_history) =
      some ((match (fun (_ : String) => (none : Option Session)) (resolveSid none "F") with
          | some s => s.conversation_history
          | none => []) ++
        [⟨"user", "hi", "t2"⟩, ⟨"assistant", pickResponse ⟨"ans", []⟩, "t2"⟩]) ∧
    stream_history_effect [] "hi" "done" "t3" =
      [] ++ [⟨"user", "hi", "t3"⟩, ⟨"assistant", "done", "t3"⟩] :=
  ⟨(chat_history_spec (fun _ => none) "hi" none "F" "t2" (.ok ⟨"ans", []⟩)).1
      ⟨"ans", []⟩ rfl,
   (chat_history_spec (fun _ => none) "hi" none "F" "t2" (.ok ⟨"ans", []⟩)).2.2.2.2.1
      [] "hi" "done" "t3" (by decide)⟩

/-- C10: `create_session` is idempotent on existing sessions: when the
given (non-empty) session id is already present, it returns that id and
leaves the whole store — hence the stored session's owner, creation
timestamp and history — unchanged; and for any non-empty id, running it
twice leaves the same store as running it once. -/
theorem create_session_spec (store : SessionStore) (user_id sid freshId now : String)
    (hsid : sid ≠ "") :
    ((store sid).isSome →
      create_session store user_id (some sid) freshId now = (sid, store)) ∧
    (∀ freshId2 now2 : String,
      (create_session (create_session store user_id (some sid) freshId now).2
          user_id (some sid) freshId2 now2).2 =
        (create_session store user_id (some sid) freshId now).2) := by
  constructor
  · intro h
    rw [create_session_provided store _ _ _ _ hsid, if_pos h]
  · intro f2 n2
    by_cases h : (store sid).isSome
    · rw [create_session_provided store _ _ _ _ hsid, if_pos h,
        create_session_provided store _ _ _ _ hsid, if_pos h]
    · rw [create_session_provided store _ _ _ _ hsid, if_neg h,
        create_session_provided _ _ _ _ _ hsid, if_pos (by simp [storeSet])]

/-- Witness for C10 at a store already holding session `S1`. -/
theorem create_session_spec_witness :
    create_session
        (fun k => if k = "S1" then some ⟨"S1", "u1", "t0", "t0", []⟩ else none)
        "u1" (some "S1") "F1" "t1" =
      ("S1", fun k => if k = "S1" then some ⟨"S1", "u1", "t0", "t0", []⟩ else none) ∧
    (create_session
        (create_session (fun _ => none) "u1" (some "S1") "F1" "t1").2
        "u1" (some "S1") "F2" "t2").2 =
      (create_session (fun _ => none) "u1" (some "S1") "F1" "t1").2 :=
  ⟨(create_session_spec
      (fun k => if k = "S1" then some ⟨"S1", "u1", "t0", "t0", []⟩ else none)
      "u1" "S1" "F1" "t1" (by decide)).1 (by simp),
   (create_session_spec (fun _ => none) "u1" "S1" "F1" "t1" (by decide)).2 "F2" "t2"⟩

/-! ## Campus analytics (`DatabaseManager.get_campus_analytics`, models.py lines 451-484)

The students table is a list of rows, the activity-log table a list of
`{student_id, timestamp}` rows with integer epoch timestamps, and `now`
the query instant, so `timestamp > datetime('now','-7 days')` becomes
`now - 7*86400 < timestamp`. The department dict produced by
`GROUP BY department` is an association list from distinct department to
row count, read back with `List.lookup`. Python's `round(x, 2)` is
banker's rounding at two decimals, embedded exactly on `ℚ` as
round-half-to-even of `x * 100` divided by `100`. The denominator is
`max(total_students, 1)` as in the source. -/

structure StudentRow where
  id : String
  name : String
  department : String
  email : String
  created_at : Int
deriving DecidableEq, Repr

structure LogEntry where
  student_id : String
  timestamp : Int
deriving DecidableEq, Repr

def roundHalfEven (q : ℚ) : ℤ :=
  if q - ⌊q⌋ < 1/2 then ⌊q⌋
  else if 1/2 < q - ⌊q⌋ then ⌊q⌋ + 1
  else if Even ⌊q⌋ then ⌊q⌋ else ⌊q⌋ + 1

def pyRound2 (q : ℚ) : ℚ :=
  ((roundHalfEven (q * 100) : ℚ)) / 100

def deptBreakdown (students : List StudentRow) : List (String × Nat) :=
  ((students.map (fun s => s.department)).dedup).map
    (fun d => (d, (students.filter (fun s => s.department == d)).length))

def recentLogs (logs : List LogEntry) (now : Int) : List LogEntry :=
  logs.filter (fun l => decide (now - 7 * 86400 < l.timestamp))

def activeCount (logs : List LogEntry) (now : Int) : Nat :=
  ((recentLogs logs now).map (fun l => l.student_id)).dedup.length

structure Analytics where
  total_students : Nat
  department_breakdown : List (String × Nat)
  recent_enrollments : Nat
  active_last_7_days : Nat
  activity_rate : ℚ
deriving DecidableEq, Repr

def get_campus_analytics (students : List StudentRow) (logs : List LogEntry)
    (now : Int) : Analytics :=
  { total_students := students.length,
    department_breakdown := deptBreakdown students,
    recent_enrollments :=
      (students.filter (fun s => decide (now - 7 * 86400 < s.created_at))).length,
    active_last_7_days := activeCount logs now,
    activity_rate :=
      pyRound2 (((activeCount logs now : ℚ) /
        ((max students.length 1 : Nat) : ℚ)) * 100) }

theorem lookup_map_pair {β : Type} (f : String → β) :
    ∀ (l : List String) (d : String) (n : β),
      List.lookup d (l.map (fun x => (x, f x))) = some n → n = f d := by
  intro l
  induction l with
  | nil => intro d n h; cases h
  | cons x xs ih =>
    intro d n h
    rw [List.map_cons, List.lookup_cons] at h
    by_cases hd : (d == x) = true
    · rw [hd] at h
      injection h with h2
      rw [← h2, beq_iff_eq.mp hd]
    · rw [Bool.not_eq_true] at hd
      rw [hd] at h
      exact ih d n h

theorem lookup_map_pair_isSome {β : Type} (f : String → β) :
    ∀ (l : List String) (d : String), d ∈ l →
      (List.lookup d (l.map (fun x => (x, f x)))).isSome = true := by
  intro l
  induction l with
  | nil => intro d h; cases h
  | cons x xs ih =>
    intro d h
    rw [List.map_cons, List.lookup_cons]
    by_cases hd : (d == x) = true
    · rw [hd]
      rfl
    · rcases List.mem_cons.mp h with rfl | h2
      · exact absurd (beq_self_eq_true d) hd
      · rw [Bool.not_eq_true] at hd
        rw [hd]
        exact ih d h2

/-- C9 counterexample: a database state with no students but one recent
activity-log row (reachable, since `update_student` inserts a log row
even for an id that no longer has a student row) yields an activity rate
of `active * 100 = 100`, not `0`, because the source divides by
`max(total, 1)`. -/
theorem get_campus_analytics_claim_counterexample :
    (get_campus_analytics [] [⟨"X", 100⟩] 100).total_students = 0 ∧
    (get_campus_analytics [] [⟨"X", 100⟩] 100).active_last_7_days = 1 ∧
    (get_campus_analytics [] [⟨"X", 100⟩] 100).activity_rate = 100 := by
  refine ⟨rfl, rfl, ?_⟩
  have hact : activeCount [⟨"X", 100⟩] 100 = 1 := rfl
  show pyRound2 (((activeCount [⟨"X", 100⟩] 100 : ℚ) /
      ((max (List.length ([] : List StudentRow)) 1 : Nat) : ℚ)) * 100) = 100
  rw [hact]
  have h1 : (((1 : Nat) : ℚ) / ((max (List.length ([] : List StudentRow)) 1 : Nat) : ℚ)) * 100
      = 100 := by norm_num
  rw [h1]
  rw [pyRound2, roundHalfEven]
  norm_num

/-- C9 amended: each department in the breakdown maps to the exact count
of its students; the activity rate is `round2((active / max(total,1)) * 100)`,
which equals `round2((active/total)*100)` whenever the total is positive,
and equals `0` when the total is `0` only if there is also no recent
activity (with zero students but `active` recent log rows it is
`active * 100`). -/
theorem get_campus_analytics_spec (students : List StudentRow)
    (logs : List LogEntry) (now : Int) :
    (∀ d n,
      List.lookup d (get_campus_analytics students logs now).department_breakdown =
        some n →
      n = (students.filter (fun s => s.department == d)).length) ∧
    (∀ d, d ∈ students.map (fun s => s.department) →
      (List.lookup d
        (get_campus_analytics students logs now).department_breakdown).isSome = true) ∧
    (get_campus_analytics students logs now).activity_rate =
      pyRound2 (((activeCount logs now : ℚ) /
        ((max students.length 1 : Nat) : ℚ)) * 100) ∧
    (0 < students.length →
      (get_campus_analytics students logs now).activity_rate =
        pyRound2 (((activeCount logs now : ℚ) / (students.length : ℚ)) * 100)) ∧
    (students.length = 0 → activeCount logs now = 0 →
      (get_campus_analytics students logs now).activity_rate = 0) ∧
    (get_campus_analytics students logs now).total_students = students.length ∧
    (get_campus_analytics students logs now).active_last_7_days =
      activeCount logs now := by
  refine ⟨?_, ?_, rfl, ?_, ?_, rfl, rfl⟩
  · intro d n h
    exact lookup_map_pair _ _ d n h
  · intro d hd
    exact lookup_map_pair_isSome _ _ d (List.mem_dedup.mpr hd)
  · intro hpos
    show pyRound2 _ = _
    have hmax : max students.length 1 = students.length := by omega
    rw [hmax]
  · intro htot hact
    show pyRound2 (((activeCount logs now : ℚ) /
        ((max students.length 1 : Nat) : ℚ)) * 100) = 0
    rw [htot, hact]
    rw [pyRound2, roundHalfEven]
    norm_num

/-- Witness for C9 (amended) at three students in two departments and one
recent log row. -/
theorem get_campus_analytics_spec_witness :
    (2 : Nat) = (([⟨"S1", "a", "CS", "e1", 0⟩, ⟨"S2", "b", "CS", "e2", 0⟩,
        ⟨"S3", "c", "Math", "e3", 0⟩] : List StudentRow).filter
          (fun s => s.department == "CS")).length ∧
    (get_campus_analytics
        [⟨"S1", "a", "CS", "e1", 0⟩, ⟨"S2", "b", "CS", "e2", 0⟩,
         ⟨"S3", "c", "Math", "e3", 0⟩] [⟨"S1", 50⟩] 50).activity_rate =
      pyRound2 (((activeCount [⟨"S1", 50⟩] 50 : ℚ) / ((3 : Nat) : ℚ)) * 100) :=
  ⟨(get_campus_analytics_spec
      [⟨"S1", "a", "CS", "e1", 0⟩, ⟨"S2", "b", "CS", "e2", 0⟩,
       ⟨"S3", "c", "Math", "e3", 0⟩] [⟨"S1", 50⟩] 50).1 "CS" 2 rfl,
   (get_campus_analytics_spec
      [⟨"S1", "a", "CS", "e1", 0⟩, ⟨"S2", "b", "CS", "e2", 0⟩,
       ⟨"S3", "c", "Math", "e3", 0⟩] [⟨"S1", 50⟩] 50).2.2.2.1 (by decide)⟩

/-! ## Streaming renderer (`stream_chat`, unified_agent.py lines 662-886)

A snapshot is one yielded dict; absent keys are the `false` defaults.
`stream_chat` has five emission paths, each a pure function of the
produced text (or of the chunk sequence the LLM stream delivered before
finishing or failing):

* `wordReplay` — admin answers, word-by-word cumulative prefixes
  (lines 716-733);
* `charReplayErr` — every error path, character-by-character replay of
  the error text with `error=true` (lines 740-751, 825-838, 845-858,
  873-886);
* astream — native LLM streaming: one snapshot per non-empty chunk with
  estimated progress `min(90, 5·count)`, then a final
  `progress=100, complete=true` snapshot, or — when the LLM stream raises
  after some chunks — an error replay instead (lines 768-795, 820-838);
* `charReplayOk` — simulated streaming of a finished answer, emitting on
  word-boundary characters, every second index, and the last index
  (lines 797-818).

`StreamRun` names which path a run took together with the data that
reached it, so `stream_chat_snapshots` is the exact snapshot sequence the
generator yields on that run. Progress values are embedded in `ℚ`. -/

def replayProgress (n i : Nat) : ℚ :=
  (((i : ℚ) + 1) / (n : ℚ)) * 100

structure Snapshot where
  response : String
  progress : ℚ
  error : Bool := false
  complete : Bool := false
  streaming : Bool := false
deriving DecidableEq, Repr

def wordReplay (content : String) : List Snapshot :=
  (List.range (pySplit content).length).map (fun i =>
    { response := String.intercalate " " ((pySplit content).take (i + 1)) ++
        (if i + 1 < (pySplit content).length then " " else ""),
      progress := replayProgress (pySplit content).length i,
      complete := decide (i + 1 = (pySplit content).length) })

def charReplayErr (msg : String) : List Snapshot :=
  (List.range msg.data.length).map (fun i =>
    { response := String.mk (msg.data.take (i + 1)),
      progress := replayProgress msg.data.length i,
      error := true,
      complete := decide (i + 1 = msg.data.length) })

def boundaryChars : List Char := [' ', '\n', '.', '!', '?', ';', ',']

def fallbackEmit (content : String) (i : Nat) : Bool :=
  decide (content.data.getD i ' ' ∈ boundaryChars) || decide (i % 2 = 0) ||
    decide (i + 1 = content.data.length)

def charReplayOk (content : String) : List Snapshot :=
  ((List.range content.data.length).filter (fallbackEmit content)).map (fun i =>
    { response := String.mk (content.data.take (i + 1)),
      progress := replayProgress content.data.length i,
      complete := decide (i + 1 = content.data.length) })

def astreamSnapshots : List String → String → Nat → List Snapshot
  | [], _, _ => []
  | c :: cs, acc, k =>
    if c = "" then astreamSnapshots cs acc k
    else
      { response := acc ++ c,
        progress := min 90 (((k : ℚ) + 1) * 5),
        streaming := true } :: astreamSnapshots cs (acc ++ c) (k + 1)

def concatChunks (chunks : List String) : String :=
  chunks.foldl (fun a c => a ++ c) ""

def adminErrText (e : String) : String :=
  "I encountered an error while processing your request: " ++ e

def apologyText (e : String) : String :=
  "I apologize, but I encountered an error: " ++ e

inductive StreamRun
  | adminOk (content : String)
  | adminErr (detail : String)
  | genAstream (chunks : List String) (fail : Option String)
  | genFallbackOk (content : String)
  | genFallbackErr (detail : String)
  | outerErr (detail : String)
deriving DecidableEq, Repr

def stream_chat_snapshots : StreamRun → List Snapshot
  | .adminOk content => wordReplay content
  | .adminErr e => charReplayErr (adminErrText e)
  | .genAstream chunks none =>
      astreamSnapshots chunks "" 0 ++
        [{ response := concatChunks chunks, progress := 100, complete := true }]
  | .genAstream chunks (some e) =>
      astreamSnapshots chunks "" 0 ++ charReplayErr (apologyText e)
  | .genFallbackOk content => charReplayOk content
  | .genFallbackErr e => charReplayErr (apologyText e)
  | .outerErr e => charReplayErr (apologyText e)

/-- C1 counterexample: (a) when the native LLM stream fails after one
chunk, the chunk snapshot carries progress `5` but the first snapshot of
the error replay carries progress `100/42 < 5`, so the emitted progress
sequence is not non-decreasing; (b) an admin answer whose text splits
into zero words emits no snapshot at all, so no final `complete=true`
snapshot exists for it. -/
theorem stream_chat_claim_counterexample :
    ¬ List.Pairwise (fun a b : Snapshot => a.progress ≤ b.progress)
        (stream_chat_snapshots (.genAstream ["a"] (some "x"))) ∧
    stream_chat_snapshots (.adminOk "") = [] := by
  constructor
  · intro hmono
    have hlen : (apologyText "x").data.length = 42 := by decide
    have hshape : stream_chat_snapshots (.genAstream ["a"] (some "x")) =
        ({ response := "" ++ "a", progress := min 90 (((0 : ℚ) + 1) * 5),
           streaming := true } : Snapshot) :: charReplayErr (apologyText "x") := by
      show astreamSnapshots ["a"] "" 0 ++ charReplayErr (apologyText "x") = _
      rw [astreamSnapshots, if_neg (by decide), astreamSnapshots]
      rfl
    rw [hshape, List.pairwise_cons] at hmono
    have h0mem :
        ({ response := String.mk ((apologyText "x").data.take (0 + 1)),
           progress := replayProgress (apologyText "x").data.length 0,
           error := true,
           complete := decide (0 + 1 = (apologyText "x").data.length) } : Snapshot) ∈
          charReplayErr (apologyText "x") := by
      rw [charReplayErr]
      exact List.mem_map.mpr ⟨0, List.mem_range.mpr (by omega), rfl⟩
    have hle := hmono.1 _ h0mem
    rw [hlen] at hle
    rw [replayProgress] at hle
    norm_num at hle
  · rfl

/-! ### Replay-path facts -/

/-- Snapshots before the last one never carry `complete = true`. -/
def CompleteOnlyAtEnd (l : List Snapshot) : Prop :=
  ∀ (i : Nat) (s : Snapshot), l.get? i = some s → i + 1 < l.length →
    s.complete = false

theorem replayProgress_le_100 (n i : Nat) (hi : i < n) :
    replayProgress n i ≤ 100 := by
  rw [replayProgress]
  have hn : (0 : ℚ) < n := by exact_mod_cast (by omega : 0 < n)
  have h1 : ((i : ℚ) + 1) / n ≤ 1 := by
    rw [div_le_one hn]
    exact_mod_cast hi
  calc ((i : ℚ) + 1) / n * 100 ≤ 1 * 100 :=
        mul_le_mul_of_nonneg_right h1 (by norm_num)
    _ = 100 := by norm_num

theorem replayProgress_mono (n : Nat) {i j : Nat} (hij : i ≤ j) :
    replayProgress n i ≤ replayProgress n j := by
  rw [replayProgress, replayProgress]
  apply mul_le_mul_of_nonneg_right _ (by norm_num : (0 : ℚ) ≤ 100)
  apply div_le_div_of_nonneg_right _ _
  · exact_mod_cast Nat.succ_le_succ hij
  · positivity

theorem replayProgress_last (n : Nat) (hn : 0 < n) :
    replayProgress n (n - 1) = 100 := by
  rw [replayProgress]
  have h1 : ((n - 1 : Nat) : ℚ) + 1 = (n : ℚ) := by
    rw [Nat.cast_sub (by omega : 1 ≤ n)]
    ring
  rw [h1, div_self (by exact_mod_cast hn.ne'), one_mul]

theorem rangeMap_progress_le (n : Nat) (mk : Nat → Snapshot)
    (hprog : ∀ i, (mk i).progress = replayProgress n i) :
    ∀ s ∈ (List.range n).map mk, s.progress ≤ 100 := by
  intro s hs
  rw [List.mem_map] at hs
  obtain ⟨i, hi, rfl⟩ := hs
  rw [hprog]
  exact replayProgress_le_100 n i (List.mem_range.mp hi)

theorem rangeMap_pairwise (n : Nat) (mk : Nat → Snapshot)
    (hprog : ∀ i, (mk i).progress = replayProgress n i) :
    List.Pairwise (fun a b => a.progress ≤ b.progress) ((List.range n).map mk) := by
  rw [List.pairwise_map]
  refine List.Pairwise.imp ?_ (List.pairwise_lt_range n)
  intro i j hij
  rw [hprog, hprog]
  exact replayProgress_mono n (le_of_lt hij)

theorem rangeMap_completeOnlyAtEnd (n : Nat) (mk : Nat → Snapshot)
    (hcomp : ∀ i, (mk i).complete = decide (i + 1 = n)) :
    CompleteOnlyAtEnd ((List.range n).map mk) := by
  intro i s hs hlt
  have hlen : ((List.range n).map mk).length = n := by simp
  rw [hlen] at hlt
  rw [List.get?_map, List.get?_range (by omega : i < n)] at hs
  injection hs with hs2
  rw [← hs2, hcomp]
  exact decide_eq_false (by omega)

theorem rangeMap_getLast (n : Nat) (mk : Nat → Snapshot) (hn : 0 < n) :
    ((List.range n).map mk).getLast? = some (mk (n - 1)) := by
  cases n with
  | zero => omega
  | succ k =>
    rw [List.range_succ, List.map_append, List.map_cons, List.map_nil,
      List.getLast?_concat]
    rfl

theorem charReplayErr_progress_le (msg : String) :
    ∀ s ∈ charReplayErr msg, s.progress ≤ 100 := by
  rw [charReplayErr]
  exact rangeMap_progress_le _ _ (fun i => rfl)

theorem charReplayErr_completeOnlyAtEnd (msg : String) :
    CompleteOnlyAtEnd (charReplayErr msg) := by
  rw [charReplayErr]
  exact rangeMap_completeOnlyAtEnd _ _ (fun i => rfl)

theorem charReplayErr_getLast (msg : String) (h : 0 < msg.data.length) :
    ∃ s, (charReplayErr msg).getLast? = some s ∧
      s.progress = 100 ∧ s.complete = true ∧ s.error = true := by
  rw [charReplayErr, rangeMap_getLast _ _ h]
  refine ⟨_, rfl, ?_, ?_, rfl⟩
  · exact replayProgress_last _ h
  · exact decide_eq_true (by omega)

theorem charReplayErr_ne_nil (msg : String) (h : 0 < msg.data.length) :
    charReplayErr msg ≠ [] := by
  have hlen : (charReplayErr msg).length = msg.data.length := by
    rw [charReplayErr]
    simp
  intro hc
  rw [hc, List.length_nil] at hlen
  omega

theorem wordReplay_progress_le (content : String) :
    ∀ s ∈ wordReplay content, s.progress ≤ 100 := by
  rw [wordReplay]
  exact rangeMap_progress_le _ _ (fun i => rfl)

theorem wordReplay_completeOnlyAtEnd (content : String) :
    CompleteOnlyAtEnd (wordReplay content) := by
  rw [wordReplay]
  exact rangeMap_completeOnlyAtEnd _ _ (fun i => rfl)

theorem wordReplay_pairwise (content : String) :
    List.Pairwise (fun a b => a.progress ≤ b.progress) (wordReplay content) := by
  rw [wordReplay]
  exact rangeMap_pairwise _ _ (fun i => rfl)

theorem wordReplay_getLast (content : String) (h : pySplit content ≠ []) :
    ∃ s, (wordReplay content).getLast? = some s ∧
      s.progress = 100 ∧ s.complete = true := by
  have hn : 0 < (pySplit content).length := List.length_pos.mpr h
  rw [wordReplay, rangeMap_getLast _ _ hn]
  refine ⟨_, rfl, ?_, ?_⟩
  · exact replayProgress_last _ hn
  · exact decide_eq_true (by omega)

theorem charReplayOk_progress_le (content : String) :
    ∀ s ∈ charReplayOk content, s.progress ≤ 100 := by
  rw [charReplayOk]
  intro s hs
  rw [List.mem_map] at hs
  obtain ⟨i, hi, rfl⟩ := hs
  have hi2 : i < content.data.length :=
    List.mem_range.mp (List.mem_filter.mp hi).1
  exact replayProgress_le_100 _ i hi2

theorem charReplayOk_pairwise (content : String) :
    List.Pairwise (fun a b => a.progress ≤ b.progress) (charReplayOk content) := by
  rw [charReplayOk, List.pairwise_map]
  refine List.Pairwise.imp ?_
    (List.Pairwise.sublist (List.filter_sublist _)
      (List.pairwise_lt_range content.data.length))
  intro i j hij
  exact replayProgress_mono _ (le_of_lt hij)

theorem charReplayOk_completeOnlyAtEnd (content : String) :
    CompleteOnlyAtEnd (charReplayOk content) := by
  intro i s hs hlt
  rw [charReplayOk] at hs hlt
  rw [List.get?_map] at hs
  have hlen : (((List.range content.data.length).filter
      (fallbackEmit content)).map (fun i =>
        ({ response := String.mk (content.data.take (i + 1)),
           progress := replayProgress content.data.length i,
           complete := decide (i + 1 = content.data.length) } : Snapshot))).length =
      ((List.range content.data.length).filter (fallbackEmit content)).length := by
    simp
  rw [hlen] at hlt
  have hi1 : i < ((List.range content.data.length).filter
      (fallbackEmit content)).length := by omega
  rw [List.get?_eq_get hi1] at hs
  injection hs with hs2
  have hi2 : i + 1 < ((List.range content.data.length).filter
      (fallbackEmit content)).length := hlt
  have hpair : List.Pairwise (· < ·)
      ((List.range content.data.length).filter (fallbackEmit content)) :=
    List.Pairwise.sublist (List.filter_sublist _)
      (List.pairwise_lt_range content.data.length)
  rw [List.pairwise_iff_get] at hpair
  have hvw := hpair ⟨i, hi1⟩ ⟨i + 1, hi2⟩ (by simp)
  have hwm : ((List.range content.data.length).filter
      (fallbackEmit content)).get ⟨i + 1, hi2⟩ < content.data.length := by
    have hmem := List.get_mem ((List.range content.data.length).filter
      (fallbackEmit content)) (i + 1) hi2
    exact List.mem_range.mp (List.mem_filter.mp hmem).1
  rw [← hs2]
  exact decide_eq_false (by omega)

theorem charReplayOk_getLast (content : String) (h : content ≠ "") :
    ∃ s, (charReplayOk content).getLast? = some s ∧
      s.progress = 100 ∧ s.complete = true := by
  have hm : 0 < content.data.length :=
    List.length_pos.mpr (data_ne_nil_of_ne_empty h)
  have hsplit : List.range content.data.length =
      List.range (content.data.length - 1) ++ [content.data.length - 1] := by
    have : content.data.length = (content.data.length - 1) + 1 := by omega
    rw [this, List.range_succ]
    simp
  have hcond : fallbackEmit content (content.data.length - 1) = true := by
    rw [fallbackEmit]
    have : decide (content.data.length - 1 + 1 = content.data.length) = true :=
      decide_eq_true (by omega)
    rw [this, Bool.or_true]
  rw [charReplayOk, hsplit, List.filter_append]
  have hfl : List.filter (fallbackEmit content) [content.data.length - 1] =
      [content.data.length - 1] := by
    rw [List.filter_cons, hcond]
    rfl
  rw [hfl, List.map_append, List.map_cons, List.map_nil, List.getLast?_concat]
  refine ⟨_, rfl, ?_, ?_⟩
  · exact replayProgress_last _ hm
  · exact decide_eq_true (by omega)

theorem astream_facts (chunks : List String) :
    ∀ (acc : String) (k : Nat) (s : Snapshot),
      s ∈ astreamSnapshots chunks acc k →
      s.progress ≤ 90 ∧ s.complete = false ∧
        ∃ k', k ≤ k' ∧ s.progress = min 90 (((k' : ℚ) + 1) * 5) := by
  induction chunks with
  | nil =>
    intro acc k s hs
    rw [astreamSnapshots] at hs
    cases hs
  | cons c cs ih =>
    intro acc k s hs
    rw [astreamSnapshots] at hs
    by_cases hc : c = ""
    · rw [if_pos hc] at hs
      exact ih acc k s hs
    · rw [if_neg hc] at hs
      rcases List.mem_cons.mp hs with rfl | hs2
      · exact ⟨min_le_left _ _, rfl, k, le_refl k, rfl⟩
      · obtain ⟨h90, hcompl, k', hk', hform⟩ := ih (acc ++ c) (k + 1) s hs2
        exact ⟨h90, hcompl, k', by omega, hform⟩

theorem astream_pairwise (chunks : List String) :
    ∀ (acc : String) (k : Nat),
      List.Pairwise (fun a b => a.progress ≤ b.progress)
        (astreamSnapshots chunks acc k) := by
  induction chunks with
  | nil =>
    intro acc k
    rw [astreamSnapshots]
    exact List.Pairwise.nil
  | cons c cs ih =>
    intro acc k
    rw [astreamSnapshots]
    by_cases hc : c = ""
    · rw [if_pos hc]
      exact ih acc k
    · rw [if_neg hc]
      rw [List.pairwise_cons]
      refine ⟨?_, ih (acc ++ c) (k + 1)⟩
      intro s hs
      obtain ⟨_, _, k', hk', hform⟩ := astream_facts cs (acc ++ c) (k + 1) s hs
      rw [hform]
      show min 90 (((k : ℚ) + 1) * 5) ≤ _
      apply min_le_min (le_refl _)
      apply mul_le_mul_of_nonneg_right _ (by norm_num : (0 : ℚ) ≤ 5)
      have : (k : ℚ) ≤ (k' : ℚ) := by exact_mod_cast (by omega : k ≤ k')
      linarith

theorem completeOnlyAtEnd_append {l1 l2 : List Snapshot}
    (h1 : ∀ s ∈ l1, s.complete = false) (h2 : CompleteOnlyAtEnd l2) :
    CompleteOnlyAtEnd (l1 ++ l2) := by
  intro i s hs hlt
  rw [List.length_append] at hlt
  by_cases hi : i < l1.length
  · rw [List.get?_append hi] at hs
    exact h1 s (List.get?_mem hs)
  · push_neg at hi
    rw [List.get?_append_right hi] at hs
    exact h2 (i - l1.length) s hs (by omega)

theorem completeOnlyAtEnd_singleton (s : Snapshot) :
    CompleteOnlyAtEnd [s] := by
  intro i t _ hlt
  simp at hlt

theorem apologyText_data_pos (e : String) : 0 < (apologyText e).data.length := by
  rw [apologyText, String.data_append, List.length_append]
  have h : 0 < ("I apologize, but I encountered an error: ").data.length := by decide
  omega

theorem adminErrText_data_pos (e : String) :
    0 < (adminErrText e).data.length := by
  rw [adminErrText, String.data_append, List.length_append]
  have h : 0 <
      ("I encountered an error while processing your request: ").data.length := by
    decide
  omega

/-- C1 amended: on every streaming run no snapshot reports progress above
100 and only the final snapshot may carry `complete = true`; on error-free
runs the progress sequence is non-decreasing, and whenever at least one
snapshot is emitted (the admin text has at least one word, the fallback
text is non-empty; the native-streaming path always emits its final
snapshot) the final snapshot has progress 100 and `complete = true`; on
every error run the stream still terminates with an `error = true`
snapshot carrying progress 100 and `complete = true`, though progress may
decrease at the error boundary. -/
theorem stream_chat_spec (run : StreamRun) :
    (∀ s ∈ stream_chat_snapshots run, s.progress ≤ 100) ∧
    CompleteOnlyAtEnd (stream_chat_snapshots run) ∧
    (∀ content, run = .adminOk content →
      List.Pairwise (fun a b => a.progress ≤ b.progress)
        (stream_chat_snapshots run) ∧
      (pySplit content ≠ [] →
        ∃ s, (stream_chat_snapshots run).getLast? = some s ∧
          s.progress = 100 ∧ s.complete = true)) ∧
    (∀ content, run = .genFallbackOk content →
      List.Pairwise (fun a b => a.progress ≤ b.progress)
        (stream_chat_snapshots run) ∧
      (content ≠ "" →
        ∃ s, (stream_chat_snapshots run).getLast? = some s ∧
          s.progress = 100 ∧ s.complete = true)) ∧
    (∀ chunks, run = .genAstream chunks none →
      List.Pairwise (fun a b => a.progress ≤ b.progress)
        (stream_chat_snapshots run) ∧
      ∃ s, (stream_chat_snapshots run).getLast? = some s ∧
        s.progress = 100 ∧ s.complete = true) ∧
    (∀ e, (run = .adminErr e ∨ run = .genFallbackErr e ∨ run = .outerErr e ∨
        (∃ chunks, run = .genAstream chunks (some e))) →
      ∃ s, (stream_chat_snapshots run).getLast? = some s ∧
        s.progress = 100 ∧ s.complete = true ∧ s.error = true) := by
  cases run with
  | adminOk content =>
    refine ⟨wordReplay_progress_le content, wordReplay_completeOnlyAtEnd content,
      ?_, ?_, ?_, ?_⟩
    · intro content' heq
      injection heq with h1
      subst h1
      exact ⟨wordReplay_pairwise content, wordReplay_getLast content⟩
    · intro content' heq
      cases heq
    · intro chunks heq
      cases heq
    · intro e h
      rcases h with h | h | h | ⟨c', h⟩ <;> cases h
  | adminErr e0 =>
    refine ⟨charReplayErr_progress_le _, charReplayErr_completeOnlyAtEnd _,
      ?_, ?_, ?_, ?_⟩
    · intro content heq
      cases heq
    · intro content heq
      cases heq
    · intro chunks heq
      cases heq
    · intro e h
      rcases h with h | h | h | ⟨c', h⟩
      · exact charReplayErr_getLast _ (adminErrText_data_pos e0)
      · cases h
      · cases h
      · cases h
  | genAstream chunks fail =>
    cases fail with
    | none =>
      have hfalse : ∀ s ∈ astreamSnapshots chunks "" 0, s.complete = false :=
        fun s hs => (astream_facts chunks "" 0 s hs).2.1
      have h90 : ∀ s ∈ astreamSnapshots chunks "" 0, s.progress ≤ 90 :=
        fun s hs => (astream_facts chunks "" 0 s hs).1
      refine ⟨?_, ?_, ?_, ?_, ?_, ?_⟩
      · intro s hs
        rw [stream_chat_snapshots, List.mem_append] at hs
        rcases hs with hs | hs
        · exact le_trans (h90 s hs) (by norm_num)
        · rcases List.mem_singleton.mp hs with rfl
          norm_num
      · show CompleteOnlyAtEnd (astreamSnapshots chunks "" 0 ++ _)
        exact completeOnlyAtEnd_append hfalse (completeOnlyAtEnd_singleton _)
      · intro content heq
        cases heq
      · intro content heq
        cases heq
      · intro chunks' _
        constructor
        · show List.Pairwise _ (astreamSnapshots chunks "" 0 ++ _)
          rw [List.pairwise_append]
          refine ⟨astream_pairwise chunks "" 0, List.pairwise_singleton _ _, ?_⟩
          intro a ha b hb
          rcases List.mem_singleton.mp hb with rfl
          exact le_trans (h90 a ha) (by norm_num)
        · show ∃ s, (astreamSnapshots chunks "" 0 ++ _).getLast? = some s ∧ _
          exact ⟨_, List.getLast?_concat _, rfl, rfl⟩
      · intro e h
        rcases h with h | h | h | ⟨c', h⟩
        · cases h
        · cases h
        · cases h
        · injection h with h1 h2
          cases h2
    | some e0 =>
      have hfalse : ∀ s ∈ astreamSnapshots chunks "" 0, s.complete = false :=
        fun s hs => (astream_facts chunks "" 0 s hs).2.1
      have h90 : ∀ s ∈ astreamSnapshots chunks "" 0, s.progress ≤ 90 :=
        fun s hs => (astream_facts chunks "" 0 s hs).1
      refine ⟨?_, ?_, ?_, ?_, ?_, ?_⟩
      · intro s hs
        rw [stream_chat_snapshots, List.mem_append] at hs
        rcases hs with hs | hs
        · exact le_trans (h90 s hs) (by norm_num)
        · exact charReplayErr_progress_le _ s hs
      · show CompleteOnlyAtEnd (astreamSnapshots chunks "" 0 ++ _)
        exact completeOnlyAtEnd_append hfalse (charReplayErr_completeOnlyAtEnd _)
      · intro content heq
        cases heq
      · intro content heq
        cases heq
      · intro chunks' heq
        injection heq with h1 h2
        cases h2
      · intro e h
        obtain ⟨s, hs, hp, hc, he⟩ :=
          charReplayErr_getLast (apologyText e0) (apologyText_data_pos e0)
        refine ⟨s, ?_, hp, hc, he⟩
        show (astreamSnapshots chunks "" 0 ++
          charReplayErr (apologyText e0)).getLast? = some s
        rw [List.getLast?_append_of_ne_nil _
          (charReplayErr_ne_nil _ (apologyText_data_pos e0))]
        exact hs
  | genFallbackOk content =>
    refine ⟨charReplayOk_progress_le content, charReplayOk_completeOnlyAtEnd content,
      ?_, ?_, ?_, ?_⟩
    · intro content' heq
      cases heq
    · intro content' heq
      injection heq with h1
      subst h1
      exact ⟨charReplayOk_pairwise content, charReplayOk_getLast content⟩
    · intro chunks heq
      cases heq
    · intro e h
      rcases h with h | h | h | ⟨c', h⟩ <;> cases h
  | genFallbackErr e0 =>
    refine ⟨charReplayErr_progress_le _, charReplayErr_completeOnlyAtEnd _,
      ?_, ?_, ?_, ?_⟩
    · intro content heq
      cases heq
    · intro content heq
      cases heq
    · intro chunks heq
      cases heq
    · intro e h
      rcases h with h | h | h | ⟨c', h⟩
      · cases h
      · exact charReplayErr_getLast _ (apologyText_data_pos e0)
      · cases h
      · cases h
  | outerErr e0 =>
    refine ⟨charReplayErr_progress_le _, charReplayErr_completeOnlyAtEnd _,
      ?_, ?_, ?_, ?_⟩
    · intro content heq
      cases heq
    · intro content heq
      cases heq
    · intro chunks heq
      cases heq
    · intro e h
      rcases h with h | h | h | ⟨c', h⟩
      · cases h
      · cases h
      · exact charReplayErr_getLast _ (apologyText_data_pos e0)
      · cases h

/-- Witness for C1 (amended) at a two-word admin answer and a failed admin
run. -/
theorem stream_chat_spec_witness :
    (∃ s, (stream_chat_snapshots (.adminOk "all done")).getLast? = some s ∧
      s.progress = 100 ∧ s.complete = true) ∧
    (∃ s, (stream_chat_snapshots (.adminErr "boom")).getLast? = some s ∧
      s.progress = 100 ∧ s.complete = true ∧ s.error = true) :=
  ⟨((stream_chat_spec (.adminOk "all done")).2.2.1 "all done" rfl).2 (by decide),
   (stream_chat_spec (.adminErr "boom")).2.2.2.2.2 "boom" (Or.inl rfl)⟩

end CampusAgent
